import Mathlib

/-!
Verification of the `Synapse` / `TerminalInfo` header codec of
`bittensor/protocol.py`.

The Python code is shallowly embedded: strings are `List Char`, header
mappings are association lists in insertion order (Python dicts with
unique keys), fallible operations return `Option` / `Except`, and the
pydantic-v1 (1.10) validation machinery that the source relies on
(`validate_assignment`, `pre`-field validators such as `cast_int`, and the
`pre` root validator `set_name_type`) is translated explicitly.

Python `float` values only ever flow through `float(s)` / `str(x)` /
equality in this code, so they are modelled by their canonical decimal
numeral (the string `str(x)` would print): `pyParseFloat` models
`str(float(s))` for plain decimal literals, the only float syntax that
appears on this wire.
-/

namespace BT

/-- Python strings are modelled as lists of characters. -/
abbrev Str := List Char

/-- Coercion from Lean string literals into the model's string type. -/
def str (s : String) : Str := s.data

/-- Decidable test for an ASCII decimal digit. -/
def isDigitCh (c : Char) : Bool := decide ('0' ≤ c) && decide (c ≤ '9')

/-- Numeric value of a digit character. -/
def digitVal (c : Char) : Nat := c.toNat - 48

/-- Digit character of a value below ten. -/
def digitChar (n : Nat) : Char := Char.ofNat (48 + n)

/-- Value of a big-endian digit string. -/
def digitsToNat (l : Str) : Nat := l.foldl (fun a c => 10 * a + digitVal c) 0

/-- Every character of the list is a decimal digit. -/
def allDigits (l : Str) : Bool := l.all isDigitCh

/-- Model of Python `int(s)` on the strings this protocol produces and
consumes: an optional sign followed by at least one digit.  A string
outside this form makes `int` raise `ValueError`, modelled as `none`. -/
def pyParseInt (s : Str) : Option Int :=
  match s with
  | '-' :: rest =>
      if !rest.isEmpty && allDigits rest then some (-(digitsToNat rest : Int)) else none
  | '+' :: rest =>
      if !rest.isEmpty && allDigits rest then some (digitsToNat rest : Int) else none
  | _ =>
      if !s.isEmpty && allDigits s then some (digitsToNat s : Int) else none

/-- Fuel-driven (hence kernel-computable) big-endian digit rendering. -/
def natToDigitsAux : Nat → Nat → Str
  | 0, _ => []
  | fuel + 1, n =>
      if n < 10 then [digitChar n]
      else natToDigitsAux fuel (n / 10) ++ [digitChar (n % 10)]

/-- Decimal digit string of a natural number, as Python prints it. -/
def natToDigits (n : Nat) : Str := natToDigitsAux (n + 1) n

/-- Model of Python `str(i)` for an `int` value. -/
def intToStr : Int → Str
  | .ofNat n => natToDigits n
  | .negSucc m => '-' :: natToDigits (m + 1)

/-- Leading zeros removed, keeping a single zero for the empty result:
the integer part of Python's canonical float printing. -/
def dropZerosFront (l : Str) : Str :=
  match l.dropWhile (fun c => c == '0') with
  | [] => ['0']
  | l' => l'

/-- Trailing zeros removed, keeping a single zero for the empty result:
the fractional part of Python's canonical float printing. -/
def dropZerosBack (l : Str) : Str :=
  match (l.reverse.dropWhile (fun c => c == '0')).reverse with
  | [] => ['0']
  | l' => l'

/-- Canonical decimal numeral for a parsed float: a minus sign for a
negative nonzero value, then integer digits, a dot, and fraction
digits, exactly as `str(float(...))` prints plain decimal input. -/
def canonFloat (neg : Bool) (ip fp : Str) : Str :=
  let ipz := dropZerosFront ip
  let fpz := dropZerosBack fp
  (if neg && !(ipz == ['0'] && fpz == ['0']) then ['-'] else [])
    ++ ipz ++ '.' :: fpz

/-- Unsigned decimal literal: digits, optionally a dot and more digits,
with at least one digit overall.  Returns integer and fraction digits. -/
def parseFloatBody (s : Str) : Option (Str × Str) :=
  match s.span isDigitCh with
  | (ip, []) => if ip.isEmpty then none else some (ip, [])
  | (ip, '.' :: fp) =>
      if allDigits fp && !(ip.isEmpty && fp.isEmpty) then some (ip, fp) else none
  | _ => none

/-- Model of `str(float(s))` for plain decimal literals: `none` when
Python's `float(s)` raises `ValueError`, otherwise the canonical
numeral of the parsed value. -/
def pyParseFloat (s : Str) : Option Str :=
  match s with
  | '-' :: rest => (parseFloatBody rest).map (fun p => canonFloat true p.1 p.2)
  | '+' :: rest => (parseFloatBody rest).map (fun p => canonFloat false p.1 p.2)
  | _ => (parseFloatBody s).map (fun p => canonFloat false p.1 p.2)

/-- The Python exception classes this code can raise while decoding. -/
inductive PyErr where
  | typeError : PyErr
  | valueError : PyErr
deriving DecidableEq, Repr

/-- Model of `cast_int` from `protocol.py`:
`int( raw ) if raw != None else raw`.  `none` input is returned
unchanged; a non-numeric string raises `ValueError`. -/
def cast_int : Option Str → Except PyErr (Option Int)
  | none => .ok none
  | some raw =>
      match pyParseInt raw with
      | some n => .ok (some n)
      | none => .error .valueError

/-- Model of `cast_float` from `protocol.py`:
`float( raw ) if raw != None else raw`. -/
def cast_float : Option Str → Except PyErr (Option Str)
  | none => .ok none
  | some raw =>
      match pyParseFloat raw with
      | some f => .ok (some f)
      | none => .error .valueError

/-- Fuel-driven model of Python `k.split(sep)` for a non-empty separator:
the string is cut at every non-overlapping occurrence of `sep`, scanning
left to right.  The fuel is an upper bound on the characters consumed,
so `splitOnL` below always supplies enough. -/
def splitOnAuxL (sep : Str) : Nat → Str → List Str
  | _, [] => [[]]
  | 0, s => [s]
  | fuel + 1, c :: rest =>
      if sep.isPrefixOf (c :: rest) then
        [] :: splitOnAuxL sep fuel (rest.drop (sep.length - 1))
      else
        match splitOnAuxL sep fuel rest with
        | [] => [[c]]
        | h :: t => (c :: h) :: t

/-- Model of Python `k.split(sep)` (non-empty `sep`). -/
def splitOnL (sep s : Str) : List Str := splitOnAuxL sep s.length s

/-- Whether `sep` occurs as a contiguous substring (Python `sep in s`). -/
def occursIn (sep : Str) : Str → Bool
  | [] => sep.isPrefixOf []
  | c :: rest => sep.isPrefixOf (c :: rest) || occursIn sep rest

/-- The record behind pydantic model `TerminalInfo` of `protocol.py`:
every field `Optional`, defaulting to `None`.  `status_code`, `port`,
`version` and `nonce` are `Optional[int]`, `process_time` is
`Optional[float]` (held as its canonical numeral), the rest are
`Optional[str]`. -/
structure TerminalInfo where
  status_code : Option Int := none
  status_message : Option Str := none
  process_time : Option Str := none
  ip : Option Str := none
  port : Option Int := none
  version : Option Int := none
  nonce : Option Int := none
  uuid : Option Str := none
  hotkey : Option Str := none
  signature : Option Str := none
deriving DecidableEq, Repr

/-- Model of `setattr(t, k, v)` on a `TerminalInfo` for a string value
`v`, under pydantic `validate_assignment`: the `pre` validators
`cast_int` / `cast_float` coerce the textual value for the numeric
fields, string fields take it verbatim, and an unknown field name or a
failed coercion raises (modelled as `none`; the caller in
`from_headers` catches every exception). -/
def TerminalInfo.setattr (t : TerminalInfo) (k v : Str) : Option TerminalInfo :=
  if k = str "status_code" then
    (pyParseInt v).map (fun n => { t with status_code := some n })
  else if k = str "status_message" then some { t with status_message := some v }
  else if k = str "process_time" then
    (pyParseFloat v).map (fun p => { t with process_time := some p })
  else if k = str "ip" then some { t with ip := some v }
  else if k = str "port" then (pyParseInt v).map (fun n => { t with port := some n })
  else if k = str "version" then (pyParseInt v).map (fun n => { t with version := some n })
  else if k = str "nonce" then (pyParseInt v).map (fun n => { t with nonce := some n })
  else if k = str "uuid" then some { t with uuid := some v }
  else if k = str "hotkey" then some { t with hotkey := some v }
  else if k = str "signature" then some { t with signature := some v }
  else none

/-- The record behind pydantic model `Synapse` of `protocol.py`:
`name : Optional[str]`, `timeout : Optional[float]` (canonical numeral,
default `12.0`), and the two owned `TerminalInfo` values. -/
structure Synapse where
  name : Option Str := some (str "Synapse")
  timeout : Option Str := some (str "12.0")
  dendrite : TerminalInfo := {}
  axon : TerminalInfo := {}
deriving DecidableEq, Repr

/-- Model of the `pre` root validator `set_name_type`:
`values['name'] = cls.__name__`, which for the base class is
`"Synapse"`. -/
def set_name_type (s : Synapse) : Synapse := { s with name := some (str "Synapse") }

/-- Model of constructing `Synapse(...)`: pydantic first runs the `pre`
root validator on the keyword values, so the caller-supplied `name` is
overwritten by the class name before fields are populated.  `tm` is the
final timeout value (`some (str "12.0")` when the argument is absent). -/
def Synapse.construct (nm tm : Option Str) (d a : TerminalInfo) : Synapse :=
  set_name_type { name := nm, timeout := tm, dendrite := d, axon := a }

/-- Model of `synapse.name = v` under pydantic 1.10
`validate_assignment`: `new_values = {**__dict__, 'name': v}` is passed
through the `pre` root validators (which force `name` to the class
name), but the assigned field itself is then re-validated from the
original value `v` and written back, so the assignment takes effect. -/
def Synapse.assignName (s : Synapse) (v : Option Str) : Synapse :=
  { set_name_type { s with name := v } with name := v }

/-- Model of `synapse.timeout = t` for a float value `t` under pydantic
1.10 `validate_assignment`: the `pre` root validator reruns on the
whole value dictionary, forcing `name` back to the class name, and the
validated timeout is stored. -/
def Synapse.assignTimeout (s : Synapse) (t : Str) : Synapse :=
  { set_name_type { s with timeout := some t } with timeout := some t }

/-- One optional header entry for an integer-typed field: an unset
field contributes nothing, a set one is rendered with `str(v)`. -/
def entryI (k : Str) : Option Int → List (Str × Str)
  | none => []
  | some n => [(k, intToStr n)]

/-- One optional header entry for a string- or float-typed field (a
model float already is its `str` rendering). -/
def entryS (k : Str) : Option Str → List (Str × Str)
  | none => []
  | some v => [(k, v)]

/-- The `{prefix+k: str(v) for k, v in t.dict().items() if v != None}`
comprehension of `to_headers`, in the field declaration order of
`TerminalInfo` (Python dict order). -/
def headerEntries (pre : Str) (t : TerminalInfo) : List (Str × Str) :=
  entryI (pre ++ str "status_code") t.status_code
    ++ entryS (pre ++ str "status_message") t.status_message
    ++ entryS (pre ++ str "process_time") t.process_time
    ++ entryS (pre ++ str "ip") t.ip
    ++ entryI (pre ++ str "port") t.port
    ++ entryI (pre ++ str "version") t.version
    ++ entryI (pre ++ str "nonce") t.nonce
    ++ entryS (pre ++ str "uuid") t.uuid
    ++ entryS (pre ++ str "hotkey") t.hotkey
    ++ entryS (pre ++ str "signature") t.signature

/-- Rendering of the mandatory `timeout` header value: `str(None)` is
the string `"None"`, a float prints as its canonical numeral. -/
def strOfOptFloat : Option Str → Str
  | none => str "None"
  | some p => p

/-- Model of `Synapse.to_headers`.  The source first rebuilds
`base_class = Synapse(**self.dict())`, whose root validator forces the
`name` entry to `"Synapse"` whatever `self.name` holds, and whose other
fields revalidate to the same values; it then emits `name`, `timeout`,
and the set axon and dendrite fields under their prefixes. -/
def Synapse.to_headers (s : Synapse) : List (Str × Str) :=
  (str "name", str "Synapse")
    :: (str "timeout", strOfOptFloat s.timeout)
    :: (headerEntries (str "axon_") s.axon ++ headerEntries (str "dendrite_") s.dendrite)

/-- Model of `headers.get(k, None)` on the header dict (association
list with unique keys; first binding wins). -/
def lookupH (hs : List (Str × Str)) (q : Str) : Option Str :=
  match hs with
  | [] => none
  | (k, v) :: rest => if k = q then some v else lookupH rest q

/-- The rebinding of the loop variable `k` by
`k = k.split('axon_')[1]`: when the index exists `k` is rebound even if
the subsequent `setattr` fails, otherwise the `IndexError` leaves `k`
unchanged. -/
def axKey (k : Str) : Str :=
  match (splitOnL (str "axon_") k)[1]? with
  | none => k
  | some k1 => k1

/-- The first `try` block of the `from_headers` loop: split on
`'axon_'`, and if a second chunk exists attempt `setattr` on the axon
with it; every exception is swallowed by the bare `except`. -/
def axStep (syn : Synapse) (k v : Str) : Synapse :=
  match (splitOnL (str "axon_") k)[1]? with
  | none => syn
  | some k1 =>
      match syn.axon.setattr k1 v with
      | none => syn
      | some ax => { syn with axon := ax }

/-- The second `try` block of the `from_headers` loop, operating on the
possibly rebound key: split on `'dendrite_'` and attempt `setattr` on
the dendrite; every exception is swallowed. -/
def dendStep (syn : Synapse) (k v : Str) : Synapse :=
  match (splitOnL (str "dendrite_") k)[1]? with
  | none => syn
  | some k2 =>
      match syn.dendrite.setattr k2 v with
      | none => syn
      | some d => { syn with dendrite := d }

/-- One iteration of the `for k, v in headers.items()` loop of
`from_headers`: the axon `try`, then the dendrite `try` on the key as
rebound by the axon split. -/
def stepKey (syn : Synapse) (kv : Str × Str) : Synapse :=
  dendStep (axStep syn kv.1 kv.2) (axKey kv.1) kv.2

/-- Model of `Synapse.from_headers`.  `float(headers.get('timeout',
None))` raises `TypeError` on an absent key and `ValueError` on an
unparsable value, both uncaught; otherwise a fresh `Synapse()` is
built, `timeout` and then `name` are assigned (each assignment rerouted
through the pydantic machinery), and the loop processes every header
pair in order. -/
def Synapse.from_headers (headers : List (Str × Str)) : Except PyErr Synapse :=
  match lookupH headers (str "timeout") with
  | none => .error .typeError
  | some tv =>
      match pyParseFloat tv with
      | none => .error .valueError
      | some t =>
          let s0 := Synapse.construct none (some (str "12.0")) {} {}
          let s1 := s0.assignTimeout t
          let s2 := s1.assignName (lookupH headers (str "name"))
          .ok (headers.foldl stepKey s2)

/-! ### Integer printing and reparsing -/

lemma digitVal_digitChar : ∀ n, n < 10 → digitVal (digitChar n) = n := by decide

lemma isDigitCh_digitChar : ∀ n, n < 10 → isDigitCh (digitChar n) = true := by decide

lemma digitsToNat_append (l : Str) (c : Char) :
    digitsToNat (l ++ [c]) = 10 * digitsToNat l + digitVal c := by
  simp [digitsToNat, List.foldl_append]

lemma natToDigitsAux_spec :
    ∀ fuel n, n < fuel →
      digitsToNat (natToDigitsAux fuel n) = n
        ∧ allDigits (natToDigitsAux fuel n) = true
        ∧ natToDigitsAux fuel n ≠ [] := by
  intro fuel
  induction fuel with
  | zero => intro n hn; omega
  | succ f ih =>
      intro n hn
      by_cases h10 : n < 10
      · refine ⟨?_, ?_, ?_⟩ <;> simp [natToDigitsAux, h10, digitsToNat, allDigits]
        · exact digitVal_digitChar n h10
        · exact isDigitCh_digitChar n h10
      · have hdiv : n / 10 < n := Nat.div_lt_self (by omega) (by omega)
        have hf : n / 10 < f := by omega
        obtain ⟨ih1, ih2, ih3⟩ := ih (n / 10) hf
        refine ⟨?_, ?_, ?_⟩
        · simp only [natToDigitsAux, if_neg h10, digitsToNat_append, ih1]
          rw [digitVal_digitChar (n % 10) (Nat.mod_lt _ (by omega))]
          omega
        · simp only [natToDigitsAux, if_neg h10, allDigits, List.all_append, Bool.and_eq_true]
          refine And.intro ih2 ?_
          simp [isDigitCh_digitChar (n % 10) (Nat.mod_lt _ (by omega))]
        · simp [natToDigitsAux, if_neg h10]

lemma natToDigits_spec (n : Nat) :
    digitsToNat (natToDigits n) = n
      ∧ allDigits (natToDigits n) = true
      ∧ natToDigits n ≠ [] :=
  natToDigitsAux_spec (n + 1) n (Nat.lt_succ_self n)

lemma isDigitCh_ne_sign {c : Char} (h : isDigitCh c = true) : c ≠ '-' ∧ c ≠ '+' := by
  constructor <;> rintro rfl <;> exact absurd h (by decide)

/-- Python `int(str(i))` returns `i`: the decimal rendering of an int
reparses to the same value. -/
lemma pyParseInt_intToStr (i : Int) : pyParseInt (intToStr i) = some i := by
  cases i with
  | ofNat n =>
      obtain ⟨h1, h2, h3⟩ := natToDigits_spec n
      obtain ⟨c, t, hct⟩ := List.exists_cons_of_ne_nil h3
      have hdig : isDigitCh c = true := by
        have := h2; rw [hct] at this
        simp [allDigits] at this
        exact this.1
      obtain ⟨hcm, hcp⟩ := isDigitCh_ne_sign hdig
      show pyParseInt (natToDigits n) = some (n : Int)
      rw [hct, pyParseInt.eq_def]
      split
      · rename_i rest heq
        exact absurd (List.cons.injEq .. ▸ heq).1 hcm
      · rename_i rest heq
        exact absurd (List.cons.injEq .. ▸ heq).1 hcp
      · have h2' : allDigits (c :: t) = true := hct ▸ h2
        have h1' : digitsToNat (c :: t) = n := hct ▸ h1
        simp [h2', h1']
  | negSucc m =>
      obtain ⟨h1, h2, h3⟩ := natToDigits_spec (m + 1)
      show pyParseInt ('-' :: natToDigits (m + 1)) = some (Int.negSucc m)
      rw [pyParseInt.eq_def]
      split
      · rename_i rest heq
        have hrest : natToDigits (m + 1) = rest := ((List.cons.injEq ..).mp heq).2
        rw [← hrest]
        have hne : (natToDigits (m + 1)).isEmpty = false := by
          cases hr : natToDigits (m + 1)
          · exact absurd hr h3
          · simp
        rw [hne, h2, h1]
        simp [Int.negSucc_eq]
      · rename_i rest heq
        exact absurd ((List.cons.injEq ..).mp heq).1 (by decide)
      · rename_i hno _
        exact absurd rfl (hno (natToDigits (m + 1)))

/-! ### Splitting and the decode loop step -/

lemma splitOnAuxL_of_not_occurs (sep : Str) :
    ∀ fuel s, occursIn sep s = false → splitOnAuxL sep fuel s = [s] := by
  intro fuel
  induction fuel with
  | zero =>
      intro s _
      cases s with
      | nil => rfl
      | cons c rest => rfl
  | succ f ih =>
      intro s hs
      cases s with
      | nil => rfl
      | cons c rest =>
          simp only [occursIn, Bool.or_eq_false_iff] at hs
          obtain ⟨h1, h2⟩ := hs
          simp only [splitOnAuxL, h1, Bool.false_eq_true, if_false, ih rest h2]

lemma splitOnL_of_not_occurs (sep s : Str) (h : occursIn sep s = false) :
    splitOnL sep s = [s] :=
  splitOnAuxL_of_not_occurs sep s.length s h

lemma get1_of_not_occurs (sep s : Str) (h : occursIn sep s = false) :
    (splitOnL sep s)[1]? = none := by
  rw [splitOnL_of_not_occurs sep s h]; rfl

/-- A key in which neither `'axon_'` nor `'dendrite_'` occurs is left
alone by the loop body: both index accesses raise `IndexError`. -/
lemma stepKey_ign (syn : Synapse) (k v : Str)
    (h1 : occursIn (str "axon_") k = false)
    (h2 : occursIn (str "dendrite_") k = false) :
    stepKey syn (k, v) = syn := by
  have ha := get1_of_not_occurs (str "axon_") k h1
  have hd := get1_of_not_occurs (str "dendrite_") k h2
  simp [stepKey, axStep, dendStep, axKey, ha, hd]

/-- A key whose `'axon_'` split succeeds and whose remainder `setattr`
succeeds updates the axon; the rebound remainder, free of
`'dendrite_'`, is then ignored by the second `try`. -/
lemma stepKey_ax (syn : Synapse) (k fk v : Str) (ax : TerminalInfo)
    (hsp : (splitOnL (str "axon_") k)[1]? = some fk)
    (hset : syn.axon.setattr fk v = some ax)
    (hd : occursIn (str "dendrite_") fk = false) :
    stepKey syn (k, v) = { syn with axon := ax } := by
  have hdn := get1_of_not_occurs (str "dendrite_") fk hd
  simp [stepKey, axStep, dendStep, axKey, hsp, hset, hdn]

/-- A key whose `'axon_'` split succeeds but whose remainder `setattr`
raises is ignored entirely when the remainder is also free of
`'dendrite_'`: the bare `except` swallows the failure. -/
lemma stepKey_ax_fail (syn : Synapse) (k fk v : Str)
    (hsp : (splitOnL (str "axon_") k)[1]? = some fk)
    (hset : syn.axon.setattr fk v = none)
    (hd : occursIn (str "dendrite_") fk = false) :
    stepKey syn (k, v) = syn := by
  have hdn := get1_of_not_occurs (str "dendrite_") fk hd
  simp [stepKey, axStep, dendStep, axKey, hsp, hset, hdn]

/-- A key free of `'axon_'` whose `'dendrite_'` split succeeds and
whose remainder `setattr` succeeds updates the dendrite. -/
lemma stepKey_dend (syn : Synapse) (k fk v : Str) (d : TerminalInfo)
    (hax : occursIn (str "axon_") k = false)
    (hsp : (splitOnL (str "dendrite_") k)[1]? = some fk)
    (hset : syn.dendrite.setattr fk v = some d) :
    stepKey syn (k, v) = { syn with dendrite := d } := by
  have han := get1_of_not_occurs (str "axon_") k hax
  simp [stepKey, axStep, dendStep, axKey, han, hsp, hset]

lemma lookupH_append_ne (H : List (Str × Str)) (k v q : Str) (h : k ≠ q) :
    lookupH (H ++ [(k, v)]) q = lookupH H q := by
  induction H with
  | nil => simp [lookupH, h]
  | cons p rest ih =>
      obtain ⟨k1, v1⟩ := p
      by_cases hk : k1 = q <;> simp [lookupH, hk, ih]

/-! ### setattr on each recognized field -/

lemma setattr_status_code (t : TerminalInfo) (n : Int) :
    t.setattr (str "status_code") (intToStr n) = some { t with status_code := some n } := by
  have e : t.setattr (str "status_code") (intToStr n)
      = (pyParseInt (intToStr n)).map (fun m => ({ t with status_code := some m } : TerminalInfo)) := rfl
  rw [e, pyParseInt_intToStr]
  rfl

lemma setattr_status_message (t : TerminalInfo) (v : Str) :
    t.setattr (str "status_message") v = some { t with status_message := some v } := rfl

lemma setattr_process_time (t : TerminalInfo) (p : Str) (hp : pyParseFloat p = some p) :
    t.setattr (str "process_time") p = some { t with process_time := some p } := by
  have e : t.setattr (str "process_time") p
      = (pyParseFloat p).map (fun q => ({ t with process_time := some q } : TerminalInfo)) := rfl
  rw [e, hp]
  rfl

lemma setattr_ip (t : TerminalInfo) (v : Str) :
    t.setattr (str "ip") v = some { t with ip := some v } := rfl

lemma setattr_port (t : TerminalInfo) (n : Int) :
    t.setattr (str "port") (intToStr n) = some { t with port := some n } := by
  have e : t.setattr (str "port") (intToStr n)
      = (pyParseInt (intToStr n)).map (fun m => ({ t with port := some m } : TerminalInfo)) := rfl
  rw [e, pyParseInt_intToStr]
  rfl

lemma setattr_version (t : TerminalInfo) (n : Int) :
    t.setattr (str "version") (intToStr n) = some { t with version := some n } := by
  have e : t.setattr (str "version") (intToStr n)
      = (pyParseInt (intToStr n)).map (fun m => ({ t with version := some m } : TerminalInfo)) := rfl
  rw [e, pyParseInt_intToStr]
  rfl

lemma setattr_nonce (t : TerminalInfo) (n : Int) :
    t.setattr (str "nonce") (intToStr n) = some { t with nonce := some n } := by
  have e : t.setattr (str "nonce") (intToStr n)
      = (pyParseInt (intToStr n)).map (fun m => ({ t with nonce := some m } : TerminalInfo)) := rfl
  rw [e, pyParseInt_intToStr]
  rfl

lemma setattr_uuid (t : TerminalInfo) (v : Str) :
    t.setattr (str "uuid") v = some { t with uuid := some v } := rfl

lemma setattr_hotkey (t : TerminalInfo) (v : Str) :
    t.setattr (str "hotkey") v = some { t with hotkey := some v } := rfl

lemma setattr_signature (t : TerminalInfo) (v : Str) :
    t.setattr (str "signature") v = some { t with signature := some v } := rfl

/-! ### Folding the encoded entries back through the decode loop -/

/-- Merge of one decoded optional field over the previous value: a
present header entry overwrites, an absent one keeps the old value. -/
def keep {α : Type} (new old : Option α) : Option α :=
  match new with
  | none => old
  | some a => some a

lemma keep_none {α : Type} (o : Option α) : keep o none = o := by
  cases o <;> rfl

lemma fold_ax_status_code (syn : Synapse) (o : Option Int) :
    List.foldl stepKey syn (entryI (str "axon_" ++ str "status_code") o)
      = { syn with axon := { syn.axon with status_code := keep o syn.axon.status_code } } := by
  cases o with
  | none => rfl
  | some n =>
      exact stepKey_ax syn (str "axon_" ++ str "status_code") (str "status_code") (intToStr n)
        { syn.axon with status_code := some n } rfl (setattr_status_code syn.axon n) rfl

lemma fold_ax_status_message (syn : Synapse) (o : Option Str) :
    List.foldl stepKey syn (entryS (str "axon_" ++ str "status_message") o)
      = { syn with axon := { syn.axon with status_message := keep o syn.axon.status_message } } := by
  cases o with
  | none => rfl
  | some v =>
      exact stepKey_ax syn (str "axon_" ++ str "status_message") (str "status_message") v
        { syn.axon with status_message := some v } rfl (setattr_status_message syn.axon v) rfl

lemma fold_ax_process_time (syn : Synapse) (o : Option Str)
    (hp : ∀ p, o = some p → pyParseFloat p = some p) :
    List.foldl stepKey syn (entryS (str "axon_" ++ str "process_time") o)
      = { syn with axon := { syn.axon with process_time := keep o syn.axon.process_time } } := by
  cases o with
  | none => rfl
  | some p =>
      exact stepKey_ax syn (str "axon_" ++ str "process_time") (str "process_time") p
        { syn.axon with process_time := some p } rfl
        (setattr_process_time syn.axon p (hp p rfl)) rfl

lemma fold_ax_ip (syn : Synapse) (o : Option Str) :
    List.foldl stepKey syn (entryS (str "axon_" ++ str "ip") o)
      = { syn with axon := { syn.axon with ip := keep o syn.axon.ip } } := by
  cases o with
  | none => rfl
  | some v =>
      exact stepKey_ax syn (str "axon_" ++ str "ip") (str "ip") v
        { syn.axon with ip := some v } rfl (setattr_ip syn.axon v) rfl

lemma fold_ax_port (syn : Synapse) (o : Option Int) :
    List.foldl stepKey syn (entryI (str "axon_" ++ str "port") o)
      = { syn with axon := { syn.axon with port := keep o syn.axon.port } } := by
  cases o with
  | none => rfl
  | some n =>
      exact stepKey_ax syn (str "axon_" ++ str "port") (str "port") (intToStr n)
        { syn.axon with port := some n } rfl (setattr_port syn.axon n) rfl

lemma fold_ax_version (syn : Synapse) (o : Option Int) :
    List.foldl stepKey syn (entryI (str "axon_" ++ str "version") o)
      = { syn with axon := { syn.axon with version := keep o syn.axon.version } } := by
  cases o with
  | none => rfl
  | some n =>
      exact stepKey_ax syn (str "axon_" ++ str "version") (str "version") (intToStr n)
        { syn.axon with version := some n } rfl (setattr_version syn.axon n) rfl

lemma fold_ax_nonce (syn : Synapse) (o : Option Int) :
    List.foldl stepKey syn (entryI (str "axon_" ++ str "nonce") o)
      = { syn with axon := { syn.axon with nonce := keep o syn.axon.nonce } } := by
  cases o with
  | none => rfl
  | some n =>
      exact stepKey_ax syn (str "axon_" ++ str "nonce") (str "nonce") (intToStr n)
        { syn.axon with nonce := some n } rfl (setattr_nonce syn.axon n) rfl

lemma fold_ax_uuid (syn : Synapse) (o : Option Str) :
    List.foldl stepKey syn (entryS (str "axon_" ++ str "uuid") o)
      = { syn with axon := { syn.axon with uuid := keep o syn.axon.uuid } } := by
  cases o with
  | none => rfl
  | some v =>
      exact stepKey_ax syn (str "axon_" ++ str "uuid") (str "uuid") v
        { syn.axon with uuid := some v } rfl (setattr_uuid syn.axon v) rfl

lemma fold_ax_hotkey (syn : Synapse) (o : Option Str) :
    List.foldl stepKey syn (entryS (str "axon_" ++ str "hotkey") o)
      = { syn with axon := { syn.axon with hotkey := keep o syn.axon.hotkey } } := by
  cases o with
  | none => rfl
  | some v =>
      exact stepKey_ax syn (str "axon_" ++ str "hotkey") (str "hotkey") v
        { syn.axon with hotkey := some v } rfl (setattr_hotkey syn.axon v) rfl

lemma fold_ax_signature (syn : Synapse) (o : Option Str) :
    List.foldl stepKey syn (entryS (str "axon_" ++ str "signature") o)
      = { syn with axon := { syn.axon with signature := keep o syn.axon.signature } } := by
  cases o with
  | none => rfl
  | some v =>
      exact stepKey_ax syn (str "axon_" ++ str "signature") (str "signature") v
        { syn.axon with signature := some v } rfl (setattr_signature syn.axon v) rfl

/-- Folding the encoded axon entries of `t` over `syn` merges every set
field of `t` into `syn.axon`. -/
lemma foldl_headerEntries_ax (syn : Synapse) (t : TerminalInfo)
    (hp : ∀ p, t.process_time = some p → pyParseFloat p = some p) :
    List.foldl stepKey syn (headerEntries (str "axon_") t)
      = { syn with axon :=
          { status_code := keep t.status_code syn.axon.status_code,
            status_message := keep t.status_message syn.axon.status_message,
            process_time := keep t.process_time syn.axon.process_time,
            ip := keep t.ip syn.axon.ip,
            port := keep t.port syn.axon.port,
            version := keep t.version syn.axon.version,
            nonce := keep t.nonce syn.axon.nonce,
            uuid := keep t.uuid syn.axon.uuid,
            hotkey := keep t.hotkey syn.axon.hotkey,
            signature := keep t.signature syn.axon.signature } } := by
  have hpt : ∀ s : Synapse, List.foldl stepKey s (entryS (str "axon_" ++ str "process_time") t.process_time)
      = { s with axon := { s.axon with process_time := keep t.process_time s.axon.process_time } } :=
    fun s => fold_ax_process_time s t.process_time hp
  simp only [headerEntries, List.foldl_append, fold_ax_status_code, fold_ax_status_message,
    hpt, fold_ax_ip, fold_ax_port, fold_ax_version, fold_ax_nonce, fold_ax_uuid,
    fold_ax_hotkey, fold_ax_signature]

lemma fold_dend_status_code (syn : Synapse) (o : Option Int) :
    List.foldl stepKey syn (entryI (str "dendrite_" ++ str "status_code") o)
      = { syn with dendrite := { syn.dendrite with status_code := keep o syn.dendrite.status_code } } := by
  cases o with
  | none => rfl
  | some n =>
      exact stepKey_dend syn (str "dendrite_" ++ str "status_code") (str "status_code") (intToStr n)
        { syn.dendrite with status_code := some n } rfl rfl (setattr_status_code syn.dendrite n)

lemma fold_dend_status_message (syn : Synapse) (o : Option Str) :
    List.foldl stepKey syn (entryS (str "dendrite_" ++ str "status_message") o)
      = { syn with dendrite := { syn.dendrite with status_message := keep o syn.dendrite.status_message } } := by
  cases o with
  | none => rfl
  | some v =>
      exact stepKey_dend syn (str "dendrite_" ++ str "status_message") (str "status_message") v
        { syn.dendrite with status_message := some v } rfl rfl (setattr_status_message syn.dendrite v)

lemma fold_dend_process_time (syn : Synapse) (o : Option Str)
    (hp : ∀ p, o = some p → pyParseFloat p = some p) :
    List.foldl stepKey syn (entryS (str "dendrite_" ++ str "process_time") o)
      = { syn with dendrite := { syn.dendrite with process_time := keep o syn.dendrite.process_time } } := by
  cases o with
  | none => rfl
  | some p =>
      exact stepKey_dend syn (str "dendrite_" ++ str "process_time") (str "process_time") p
        { syn.dendrite with process_time := some p } rfl rfl
        (setattr_process_time syn.dendrite p (hp p rfl))

lemma fold_dend_ip (syn : Synapse) (o : Option Str) :
    List.foldl stepKey syn (entryS (str "dendrite_" ++ str "ip") o)
      = { syn with dendrite := { syn.dendrite with ip := keep o syn.dendrite.ip } } := by
  cases o with
  | none => rfl
  | some v =>
      exact stepKey_dend syn (str "dendrite_" ++ str "ip") (str "ip") v
        { syn.dendrite with ip := some v } rfl rfl (setattr_ip syn.dendrite v)

lemma fold_dend_port (syn : Synapse) (o : Option Int) :
    List.foldl stepKey syn (entryI (str "dendrite_" ++ str "port") o)
      = { syn with dendrite := { syn.dendrite with port := keep o syn.dendrite.port } } := by
  cases o with
  | none => rfl
  | some n =>
      exact stepKey_dend syn (str "dendrite_" ++ str "port") (str "port") (intToStr n)
        { syn.dendrite with port := some n } rfl rfl (setattr_port syn.dendrite n)

lemma fold_dend_version (syn : Synapse) (o : Option Int) :
    List.foldl stepKey syn (entryI (str "dendrite_" ++ str "version") o)
      = { syn with dendrite := { syn.dendrite with version := keep o syn.dendrite.version } } := by
  cases o with
  | none => rfl
  | some n =>
      exact stepKey_dend syn (str "dendrite_" ++ str "version") (str "version") (intToStr n)
        { syn.dendrite with version := some n } rfl rfl (setattr_version syn.dendrite n)

lemma fold_dend_nonce (syn : Synapse) (o : Option Int) :
    List.foldl stepKey syn (entryI (str "dendrite_" ++ str "nonce") o)
      = { syn with dendrite := { syn.dendrite with nonce := keep o syn.dendrite.nonce } } := by
  cases o with
  | none => rfl
  | some n =>
      exact stepKey_dend syn (str "dendrite_" ++ str "nonce") (str "nonce") (intToStr n)
        { syn.dendrite with nonce := some n } rfl rfl (setattr_nonce syn.dendrite n)

lemma fold_dend_uuid (syn : Synapse) (o : Option Str) :
    List.foldl stepKey syn (entryS (str "dendrite_" ++ str "uuid") o)
      = { syn with dendrite := { syn.dendrite with uuid := keep o syn.dendrite.uuid } } := by
  cases o with
  | none => rfl
  | some v =>
      exact stepKey_dend syn (str "dendrite_" ++ str "uuid") (str "uuid") v
        { syn.dendrite with uuid := some v } rfl rfl (setattr_uuid syn.dendrite v)

lemma fold_dend_hotkey (syn : Synapse) (o : Option Str) :
    List.foldl stepKey syn (entryS (str "dendrite_" ++ str "hotkey") o)
      = { syn with dendrite := { syn.dendrite with hotkey := keep o syn.dendrite.hotkey } } := by
  cases o with
  | none => rfl
  | some v =>
      exact stepKey_dend syn (str "dendrite_" ++ str "hotkey") (str "hotkey") v
        { syn.dendrite with hotkey := some v } rfl rfl (setattr_hotkey syn.dendrite v)

lemma fold_dend_signature (syn : Synapse) (o : Option Str) :
    List.foldl stepKey syn (entryS (str "dendrite_" ++ str "signature") o)
      = { syn with dendrite := { syn.dendrite with signature := keep o syn.dendrite.signature } } := by
  cases o with
  | none => rfl
  | some v =>
      exact stepKey_dend syn (str "dendrite_" ++ str "signature") (str "signature") v
        { syn.dendrite with signature := some v } rfl rfl (setattr_signature syn.dendrite v)

/-- Folding the encoded dendrite entries of `t` over `syn` merges every
set field of `t` into `syn.dendrite`. -/
lemma foldl_headerEntries_dend (syn : Synapse) (t : TerminalInfo)
    (hp : ∀ p, t.process_time = some p → pyParseFloat p = some p) :
    List.foldl stepKey syn (headerEntries (str "dendrite_") t)
      = { syn with dendrite :=
          { status_code := keep t.status_code syn.dendrite.status_code,
            status_message := keep t.status_message syn.dendrite.status_message,
            process_time := keep t.process_time syn.dendrite.process_time,
            ip := keep t.ip syn.dendrite.ip,
            port := keep t.port syn.dendrite.port,
            version := keep t.version syn.dendrite.version,
            nonce := keep t.nonce syn.dendrite.nonce,
            uuid := keep t.uuid syn.dendrite.uuid,
            hotkey := keep t.hotkey syn.dendrite.hotkey,
            signature := keep t.signature syn.dendrite.signature } } := by
  have hpt : ∀ s : Synapse, List.foldl stepKey s (entryS (str "dendrite_" ++ str "process_time") t.process_time)
      = { s with dendrite := { s.dendrite with process_time := keep t.process_time s.dendrite.process_time } } :=
    fun s => fold_dend_process_time s t.process_time hp
  simp only [headerEntries, List.foldl_append, fold_dend_status_code, fold_dend_status_message,
    hpt, fold_dend_ip, fold_dend_port, fold_dend_version, fold_dend_nonce, fold_dend_uuid,
    fold_dend_hotkey, fold_dend_signature]

/-- Decoding the headers encoded from `S` rebuilds `S` up to the `name`
field, which is forced to the class name: `timeout` must be a set float
value and every stored float must be a canonical numeral (every value a
real Python float state can hold is). -/
lemma from_to_headers (S : Synapse) (t : Str)
    (ht : S.timeout = some t) (htc : pyParseFloat t = some t)
    (hax : ∀ p, S.axon.process_time = some p → pyParseFloat p = some p)
    (hden : ∀ p, S.dendrite.process_time = some p → pyParseFloat p = some p) :
    Synapse.from_headers S.to_headers = .ok { S with name := some (str "Synapse") } := by
  have hlook : lookupH S.to_headers (str "timeout") = some t := by
    show some (strOfOptFloat S.timeout) = some t
    rw [ht]
    rfl
  have hnm : lookupH S.to_headers (str "name") = some (str "Synapse") := rfl
  have e1 : ∀ (sy : Synapse) (v : Str), stepKey sy (str "name", v) = sy :=
    fun sy v => stepKey_ign sy (str "name") v rfl rfl
  have e2 : ∀ (sy : Synapse) (v : Str), stepKey sy (str "timeout", v) = sy :=
    fun sy v => stepKey_ign sy (str "timeout") v rfl rfl
  have hfa := fun sy => foldl_headerEntries_ax sy S.axon hax
  have hfd := fun sy => foldl_headerEntries_dend sy S.dendrite hden
  unfold Synapse.from_headers
  rw [hlook]
  dsimp only
  rw [htc]
  dsimp only
  rw [hnm]
  have hs2 : ((Synapse.construct none (some (str "12.0")) {} {}).assignTimeout t).assignName
        (some (str "Synapse"))
      = { name := some (str "Synapse"), timeout := some t, dendrite := {}, axon := {} } := rfl
  rw [hs2]
  unfold Synapse.to_headers
  rw [List.foldl_cons, List.foldl_cons, e1, e2, List.foldl_append, hfa, hfd]
  dsimp only
  simp only [keep_none]
  rw [ht]

/-! ### Fixtures for witnesses and counterexamples -/

/-- Every field of `TerminalInfo` populated with the example values of
the source's field declarations. -/
def sampleAxonTI : TerminalInfo :=
  { status_code := some 200, status_message := some (str "Success"),
    process_time := some (str "0.1"), ip := some (str "198.123.23.1"),
    port := some 9282, version := some 111, nonce := some 111111,
    uuid := some (str "5ecbd69c-1cec-11ee-b0dc-e29ce36fec1a"),
    hotkey := some (str "5EnjDGNqqWnuL2HCAdxeEtN2oqtXZw6BMBe936Kfy2PFz1J1"),
    signature := some (str "0x0813029319030129u4120u10841824y0182u091u230912u") }

/-- Every field of `TerminalInfo` populated, caller-side variant. -/
def sampleDendTI : TerminalInfo :=
  { status_code := some 100, status_message := some (str "Pending"),
    process_time := some (str "0.25"), ip := some (str "10.0.0.2"),
    port := some 8091, version := some 650, nonce := some 424242,
    uuid := some (str "11111111-2222-3333-4444-555555555555"),
    hotkey := some (str "5FHneW46xGXgs5mUiveU4sbTyGBzmstUspZC92UhjJM694ty"),
    signature := some (str "0xdeadbeef") }

/-- A fully populated `Synapse` in a state reachable by the source. -/
def sampleSyn : Synapse :=
  { name := some (str "Synapse"), timeout := some (str "12.0"),
    dendrite := sampleDendTI, axon := sampleAxonTI }

/-- All ten fields of a `TerminalInfo` are populated. -/
def allSet (ti : TerminalInfo) : Prop :=
  ti.status_code.isSome = true ∧ ti.status_message.isSome = true
    ∧ ti.process_time.isSome = true ∧ ti.ip.isSome = true
    ∧ ti.port.isSome = true ∧ ti.version.isSome = true
    ∧ ti.nonce.isSome = true ∧ ti.uuid.isSome = true
    ∧ ti.hotkey.isSome = true ∧ ti.signature.isSome = true

/-! ### Claim C1 -/

/-- C1: for every Synapse `S` whose name, timeout and every
`TerminalInfo` field of both dendrite and axon hold valid values (the
only valid `name` of the base class is the class-derived `"Synapse"`,
and a float field can only hold a canonical numeral),
`Synapse.from_headers (S.to_headers)` succeeds and reproduces `S.name`,
`S.timeout`, and both terminals value for value. -/
theorem claim_C1_roundtrip (S : Synapse) (t : Str)
    (hname : S.name = some (str "Synapse"))
    (ht : S.timeout = some t) (htc : pyParseFloat t = some t)
    (haxs : allSet S.axon) (hdens : allSet S.dendrite)
    (haxf : ∀ p, S.axon.process_time = some p → pyParseFloat p = some p)
    (hdenf : ∀ p, S.dendrite.process_time = some p → pyParseFloat p = some p) :
    Synapse.from_headers S.to_headers = .ok S := by
  rw [from_to_headers S t ht htc haxf hdenf, ← hname]

/-- C1 witness: the round trip at a concrete fully populated Synapse. -/
theorem claim_C1_witness :
    Synapse.from_headers sampleSyn.to_headers = .ok sampleSyn :=
  claim_C1_roundtrip sampleSyn (str "12.0") rfl rfl (by decide)
    ⟨rfl, rfl, rfl, rfl, rfl, rfl, rfl, rfl, rfl, rfl⟩
    ⟨rfl, rfl, rfl, rfl, rfl, rfl, rfl, rfl, rfl, rfl⟩
    (by intro p hp; injection hp with h; rw [← h]; decide)
    (by intro p hp; injection hp with h; rw [← h]; decide)

/-! ### Claim C7 -/

/-- C7: for every header map produced by `to_headers` from a decodable
Synapse (timeout set, floats canonical), decoding and re-encoding gives
back the same header map, key for key. -/
theorem claim_C7_encode_decode_encode (S : Synapse) (t : Str)
    (ht : S.timeout = some t) (htc : pyParseFloat t = some t)
    (haxf : ∀ p, S.axon.process_time = some p → pyParseFloat p = some p)
    (hdenf : ∀ p, S.dendrite.process_time = some p → pyParseFloat p = some p) :
    ∃ S2, Synapse.from_headers S.to_headers = .ok S2
      ∧ S2.to_headers = S.to_headers := by
  refine ⟨{ S with name := some (str "Synapse") },
    from_to_headers S t ht htc haxf hdenf, ?_⟩
  rfl

/-- C7 witness: idempotence at a concrete fully populated Synapse. -/
theorem claim_C7_witness :
    ∃ S2, Synapse.from_headers sampleSyn.to_headers = .ok S2
      ∧ S2.to_headers = sampleSyn.to_headers :=
  claim_C7_encode_decode_encode sampleSyn (str "12.0") rfl rfl
    (by intro p hp; injection hp with h; rw [← h]; decide)
    (by intro p hp; injection hp with h; rw [← h]; decide)

/-! ### Claim C2 -/

/-- The Synapse of the concrete scenario:
`Synapse(name="Forward", timeout=12.0, axon=TerminalInfo(hotkey="5Enj...", nonce=111111))`. -/
def synC2 : Synapse :=
  Synapse.construct (some (str "Forward")) (some (str "12.0")) {}
    { nonce := some 111111, hotkey := some (str "5Enj...") }

/-- C2 counterexample: the encoded header map carries
`name = "Synapse"`, not `name = "Forward"` as the claim states — the
constructor's root validator discards the caller-supplied name. -/
theorem claim_C2_counterexample :
    lookupH synC2.to_headers (str "name") = some (str "Synapse")
      ∧ some (str "Synapse") ≠ some (str "Forward") := by
  exact ⟨rfl, by decide⟩

/-- C2 amended: the scenario's header map holds exactly the four
entries `name = Synapse` (the caller-supplied `"Forward"` is
discarded), `timeout = 12.0`, `axon_nonce = 111111` and
`axon_hotkey = 5Enj...`, and no key carries the `dendrite_` marker. -/
theorem claim_C2_amended :
    synC2.to_headers
      = [(str "name", str "Synapse"), (str "timeout", str "12.0"),
         (str "axon_nonce", str "111111"), (str "axon_hotkey", str "5Enj...")]
      ∧ ∀ kv ∈ synC2.to_headers, (str "dendrite_").isPrefixOf kv.1 = false := by
  exact ⟨rfl, by decide⟩

/-! ### Claim C3 -/

/-- Header map whose second key starts with neither `"axon_"` nor
`"dendrite_"` but contains `"axon_"` in the middle. -/
def hdrC3 : List (Str × Str) := [(str "timeout", str "12.0"), (str "Xaxon_port", str "7")]

/-- The Synapse actually decoded from `hdrC3`. -/
def synC3 : Synapse :=
  { name := none, timeout := some (str "12.0"), dendrite := {}, axon := { port := some 7 } }

/-- C3 counterexample: the key `"Xaxon_port"` starts with neither
prefix, yet decoding `hdrC3` sets `axon.port`: the loop splits on an
occurrence of `"axon_"` anywhere in the key, not on a leading one, so
a key starting with neither prefix does not leave the Synapse
unchanged. -/
theorem claim_C3_counterexample :
    Synapse.from_headers hdrC3 = .ok synC3
      ∧ (str "axon_").isPrefixOf (str "Xaxon_port") = false
      ∧ (str "dendrite_").isPrefixOf (str "Xaxon_port") = false
      ∧ synC3.axon.port = some 7 := by
  exact ⟨rfl, by decide, by decide, rfl⟩

/-- C3 amended: the loop routes each key by *substring* occurrence, in
fixed order: the chunk after the first `"axon_"` occurrence (when one
exists) is tried as an axon field and the key is rebound to it, then
the same is done for `"dendrite_"` on the possibly rebound key; a key
containing neither substring leaves the decoded Synapse unchanged, and
recognized remainders such as `hotkey` are set on the matching
terminal — including via rebinding for a key like
`"axon_dendrite_hotkey"`. -/
theorem claim_C3_amended (syn : Synapse) (k v : Str)
    (h1 : occursIn (str "axon_") k = false)
    (h2 : occursIn (str "dendrite_") k = false) :
    stepKey syn (k, v) = syn
      ∧ stepKey syn (str "axon_hotkey", v)
        = { syn with axon := { syn.axon with hotkey := some v } }
      ∧ stepKey syn (str "dendrite_hotkey", v)
        = { syn with dendrite := { syn.dendrite with hotkey := some v } }
      ∧ stepKey syn (str "axon_dendrite_hotkey", v)
        = { syn with dendrite := { syn.dendrite with hotkey := some v } } := by
  refine ⟨stepKey_ign syn k v h1 h2, ?_, ?_, ?_⟩
  · exact stepKey_ax syn (str "axon_hotkey") (str "hotkey") v
      { syn.axon with hotkey := some v } rfl (setattr_hotkey syn.axon v) rfl
  · exact stepKey_dend syn (str "dendrite_hotkey") (str "hotkey") v
      { syn.dendrite with hotkey := some v } rfl rfl (setattr_hotkey syn.dendrite v)
  · have ha : (splitOnL (str "axon_") (str "axon_dendrite_hotkey"))[1]?
        = some (str "dendrite_hotkey") := rfl
    have hf : syn.axon.setattr (str "dendrite_hotkey") v = none := rfl
    have hd2 : (splitOnL (str "dendrite_") (str "dendrite_hotkey"))[1]?
        = some (str "hotkey") := rfl
    simp [stepKey, axStep, dendStep, axKey, ha, hf, hd2, setattr_hotkey]

/-- C3 witness: the amended statement at a concrete ignored key. -/
theorem claim_C3_witness :
    stepKey sampleSyn (str "foo_bar", str "baz") = sampleSyn
      ∧ stepKey sampleSyn (str "axon_hotkey", str "baz")
        = { sampleSyn with axon := { sampleSyn.axon with hotkey := some (str "baz") } }
      ∧ stepKey sampleSyn (str "dendrite_hotkey", str "baz")
        = { sampleSyn with dendrite := { sampleSyn.dendrite with hotkey := some (str "baz") } }
      ∧ stepKey sampleSyn (str "axon_dendrite_hotkey", str "baz")
        = { sampleSyn with dendrite := { sampleSyn.dendrite with hotkey := some (str "baz") } } :=
  claim_C3_amended sampleSyn (str "foo_bar") (str "baz") (by decide) (by decide)

/-! ### Claim C4 -/

/-- Header map with a valid name, timeout, axon ip and axon hotkey, and
an `axon_port` value `v` (non-numeric in the claim's scenario). -/
def hdrC4 (v : Str) : List (Str × Str) :=
  [(str "name", str "Synapse"), (str "timeout", str "12.0"),
   (str "axon_ip", str "1.2.3.4"), (str "axon_port", v), (str "axon_hotkey", str "HK")]

/-- The Synapse actually decoded from `hdrC4` with a bad port: the port
is silently left unset while the surrounding fields are populated. -/
def synC4 : Synapse :=
  { name := some (str "Synapse"), timeout := some (str "12.0"), dendrite := {},
    axon := { ip := some (str "1.2.3.4"), hotkey := some (str "HK") } }

/-- C4 counterexample: with `axon_port = "not-a-number"` the decode
does not fail at all — no `MalformedHeaderValue` and no aggregated
per-field error exists; the bare `except` swallows the coercion
failure, the decode returns `ok`, and `axon.port` stays unset. -/
theorem claim_C4_counterexample :
    Synapse.from_headers (hdrC4 (str "not-a-number")) = .ok synC4
      ∧ synC4.axon.port = none := by
  exact ⟨rfl, rfl⟩

/-- The intermediate Synapse after the first three entries of `hdrC4`. -/
def synC4pre : Synapse :=
  { name := some (str "Synapse"), timeout := some (str "12.0"), dendrite := {},
    axon := { ip := some (str "1.2.3.4") } }

/-- C4 amended: for every `axon_port` value that fails integer
coercion, decoding `hdrC4 v` still succeeds, silently leaves
`axon.port` unset, and populates every other recognized field (both
before and after the bad entry) correctly; no error is surfaced. -/
theorem claim_C4_amended (v : Str) (hv : pyParseInt v = none) :
    Synapse.from_headers (hdrC4 v) = .ok synC4 := by
  have hset : synC4pre.axon.setattr (str "port") v = none := by
    have e : synC4pre.axon.setattr (str "port") v
        = (pyParseInt v).map (fun m => ({ synC4pre.axon with port := some m } : TerminalInfo)) := rfl
    rw [e, hv]
    rfl
  have hstep : stepKey synC4pre (str "axon_port", v) = synC4pre :=
    stepKey_ax_fail synC4pre (str "axon_port") (str "port") v rfl hset rfl
  show Except.ok (List.foldl stepKey
      { name := some (str "Synapse"), timeout := some (str "12.0"),
        dendrite := {}, axon := {} }
      ([(str "name", str "Synapse"), (str "timeout", str "12.0"), (str "axon_ip", str "1.2.3.4")]
        ++ [(str "axon_port", v)] ++ [(str "axon_hotkey", str "HK")])) = Except.ok synC4
  rw [List.foldl_append, List.foldl_append]
  rw [show List.foldl stepKey
      { name := some (str "Synapse"), timeout := some (str "12.0"),
        dendrite := {}, axon := {} }
      [(str "name", str "Synapse"), (str "timeout", str "12.0"), (str "axon_ip", str "1.2.3.4")]
      = synC4pre from rfl]
  rw [show List.foldl stepKey synC4pre [(str "axon_port", v)]
      = stepKey synC4pre (str "axon_port", v) from rfl]
  rw [hstep]
  rfl

/-- C4 witness: the amended statement at the claim's concrete value. -/
theorem claim_C4_witness :
    Synapse.from_headers (hdrC4 (str "not-a-number")) = .ok synC4 :=
  claim_C4_amended (str "not-a-number") (by decide)

/-! ### Claim C5 -/

/-- C5: decoding rejects a header map without a parsable mandatory
`timeout` before any payload processing: an absent key fails with the
`TypeError` of `float(None)` and an unparsable value with the
`ValueError` of `float`, each returned as the decode outcome of the
model (the raised exception), and no Synapse is produced. -/
theorem claim_C5_mandatory_timeout (H : List (Str × Str)) :
    (lookupH H (str "timeout") = none → Synapse.from_headers H = .error .typeError)
      ∧ (∀ s, lookupH H (str "timeout") = some s → pyParseFloat s = none →
          Synapse.from_headers H = .error .valueError) := by
  constructor
  · intro h
    unfold Synapse.from_headers
    rw [h]
  · intro s h1 h2
    unfold Synapse.from_headers
    rw [h1]
    dsimp only
    rw [h2]

/-- C5 witness: absent timeout and non-float timeout both rejected. -/
theorem claim_C5_witness :
    Synapse.from_headers [] = .error .typeError
      ∧ Synapse.from_headers [(str "timeout", str "abc")] = .error .valueError :=
  ⟨(claim_C5_mandatory_timeout []).1 rfl,
   (claim_C5_mandatory_timeout [(str "timeout", str "abc")]).2 (str "abc") rfl rfl⟩

/-! ### Claim C6 -/

/-- A freshly constructed base Synapse. -/
def synC6 : Synapse := Synapse.construct none (some (str "12.0")) {} {}

/-- C6 counterexample: assigning a different `name` after construction
does not fail — there is no `ImmutableFieldReassignment` error, the
assignment completes and `name` actually changes to the assigned
value (pydantic 1.10 revalidates the assigned field from the original
value after the root validator ran). -/
theorem claim_C6_counterexample :
    (synC6.assignName (some (str "Forward"))).name = some (str "Forward")
      ∧ synC6.name = some (str "Synapse")
      ∧ str "Forward" ≠ str "Synapse" := by
  exact ⟨rfl, rfl, by decide⟩

/-- C6 amended: `name` is derived from the concrete class exactly once
at construction (any caller-supplied value is discarded); a later
direct assignment to `name` does not fail but silently succeeds and
changes `name`, while assigning any *other* field (such as `timeout`)
reruns the root validator and forces `name` back to the class name. -/
theorem claim_C6_amended (nm tm : Option Str) (d a : TerminalInfo) (v : Option Str) (t : Str) :
    (Synapse.construct nm tm d a).name = some (str "Synapse")
      ∧ ((Synapse.construct nm tm d a).assignName v).name = v
      ∧ (((Synapse.construct nm tm d a).assignName v).assignTimeout t).name
        = some (str "Synapse") := by
  exact ⟨rfl, rfl, rfl⟩

/-! ### Claim C8 -/

/-- A minimal valid header map. -/
def hdrC8 : List (Str × Str) := [(str "timeout", str "12.0")]

/-- C8 counterexample: adding the entry `axon_dendrite_hotkey = "HK"`
— a recognized prefix with an unrecognized field suffix, which the
claim says is silently ignored — changes the decode result: the axon
`setattr` fails, the key is rebound to `dendrite_hotkey`, and the
second `try` sets `dendrite.hotkey`. -/
theorem claim_C8_counterexample :
    Synapse.from_headers (hdrC8 ++ [(str "axon_dendrite_hotkey", str "HK")])
      = .ok { name := none, timeout := some (str "12.0"),
              dendrite := { hotkey := some (str "HK") }, axon := {} }
      ∧ Synapse.from_headers hdrC8
        = .ok { name := none, timeout := some (str "12.0"), dendrite := {}, axon := {} }
      ∧ ({ hotkey := some (str "HK") } : TerminalInfo) ≠ ({} : TerminalInfo) := by
  exact ⟨rfl, rfl, by decide⟩

/-- C8 amended: adding an entry whose key contains neither `"axon_"`
nor `"dendrite_"` as a substring (and is not `name` or `timeout`
itself) never changes the decode result and is never surfaced as an
error, for every header map. -/
theorem claim_C8_amended (H : List (Str × Str)) (k v : Str)
    (h1 : occursIn (str "axon_") k = false)
    (h2 : occursIn (str "dendrite_") k = false)
    (h3 : k ≠ str "timeout") (h4 : k ≠ str "name") :
    Synapse.from_headers (H ++ [(k, v)]) = Synapse.from_headers H := by
  unfold Synapse.from_headers
  rw [lookupH_append_ne H k v (str "timeout") h3, lookupH_append_ne H k v (str "name") h4]
  cases hlt : lookupH H (str "timeout") with
  | none => rfl
  | some s =>
      dsimp only
      cases hpf : pyParseFloat s with
      | none => rfl
      | some t =>
          dsimp only
          rw [List.foldl_append]
          rw [show List.foldl stepKey
              (List.foldl stepKey
                (((Synapse.construct none (some (str "12.0")) {} {}).assignTimeout t).assignName
                  (lookupH H (str "name"))) H) [(k, v)]
            = stepKey (List.foldl stepKey
                (((Synapse.construct none (some (str "12.0")) {} {}).assignTimeout t).assignName
                  (lookupH H (str "name"))) H) (k, v) from rfl]
          rw [stepKey_ign _ k v h1 h2]

/-- C8 witness: the unknown-key entry `foo_bar = baz` added to a valid
header map leaves the decode result unchanged. -/
theorem claim_C8_witness :
    Synapse.from_headers (hdrC8 ++ [(str "foo_bar", str "baz")])
      = Synapse.from_headers hdrC8 :=
  claim_C8_amended hdrC8 (str "foo_bar") (str "baz") (by decide) (by decide)
    (by decide) (by decide)

/-! ### Claim C9 -/

/-- C9: the numeric setters (`port`, `nonce`, `version`,
`status_code`) coerce through `cast_int`: `None` stays unset, a
numeric string assigns the parsed integer, and a non-numeric string is
a signalled failure (a raised `ValueError`), never a silently
defaulted value. -/
theorem claim_C9_numeric_coercion (t : TerminalInfo) (s : Str) :
    cast_int none = .ok none
      ∧ (∀ n, pyParseInt s = some n →
          cast_int (some s) = .ok (some n)
            ∧ t.setattr (str "port") s = some { t with port := some n }
            ∧ t.setattr (str "nonce") s = some { t with nonce := some n }
            ∧ t.setattr (str "version") s = some { t with version := some n }
            ∧ t.setattr (str "status_code") s = some { t with status_code := some n })
      ∧ (pyParseInt s = none →
          cast_int (some s) = .error .valueError
            ∧ t.setattr (str "port") s = none
            ∧ t.setattr (str "nonce") s = none
            ∧ t.setattr (str "version") s = none
            ∧ t.setattr (str "status_code") s = none) := by
  have eport : t.setattr (str "port") s
      = (pyParseInt s).map (fun m => ({ t with port := some m } : TerminalInfo)) := rfl
  have enonce : t.setattr (str "nonce") s
      = (pyParseInt s).map (fun m => ({ t with nonce := some m } : TerminalInfo)) := rfl
  have ever : t.setattr (str "version") s
      = (pyParseInt s).map (fun m => ({ t with version := some m } : TerminalInfo)) := rfl
  have esc : t.setattr (str "status_code") s
      = (pyParseInt s).map (fun m => ({ t with status_code := some m } : TerminalInfo)) := rfl
  have ec : cast_int (some s)
      = (match pyParseInt s with
          | some n => Except.ok (some n)
          | none => Except.error PyErr.valueError) := rfl
  refine ⟨rfl, ?_, ?_⟩
  · intro n hn
    rw [ec, eport, enonce, ever, esc, hn]
    exact ⟨rfl, rfl, rfl, rfl, rfl⟩
  · intro hn
    rw [ec, eport, enonce, ever, esc, hn]
    exact ⟨rfl, rfl, rfl, rfl, rfl⟩

/-- C9 witness: the three coercion behaviours at concrete inputs. -/
theorem claim_C9_witness :
    cast_int none = .ok none
      ∧ cast_int (some (str "9282")) = .ok (some 9282)
      ∧ TerminalInfo.setattr {} (str "port") (str "9282") = some { port := some (9282 : Int) }
      ∧ cast_int (some (str "not-numeric")) = .error .valueError
      ∧ TerminalInfo.setattr {} (str "port") (str "not-numeric") = none :=
  ⟨(claim_C9_numeric_coercion {} (str "9282")).1,
   ((claim_C9_numeric_coercion {} (str "9282")).2.1 9282 (by decide)).1,
   ((claim_C9_numeric_coercion {} (str "9282")).2.1 9282 (by decide)).2.1,
   ((claim_C9_numeric_coercion {} (str "not-numeric")).2.2 (by decide)).1,
   ((claim_C9_numeric_coercion {} (str "not-numeric")).2.2 (by decide)).2.1⟩

/-! ### Claim C10 -/

/-- C10: constructing a base Synapse with any caller-supplied `name`
yields an instance named `"Synapse"`, the constructing class's own
name: the `name` argument is always discarded, and the construction
result is identical to one that passed no name at all. -/
theorem claim_C10_constructor_name (s : Str) (tm : Option Str) (d a : TerminalInfo) :
    (Synapse.construct (some s) tm d a).name = some (str "Synapse")
      ∧ Synapse.construct (some s) tm d a = Synapse.construct none tm d a := by
  exact ⟨rfl, rfl⟩

end BT
